import Mathlib

/-!
Shallow embedding of `src/webhook_service.py` (a FastAPI service receiving
Resend email webhooks and persisting normalized event records to a Supabase
table), together with theorems checking the specification's claims.

Modelling conventions:
* JSON payload fields that may be absent become `Option` fields; a field
  that is present with a falsy value (empty string, empty list) is modelled
  by the corresponding empty value, matching Python truthiness where the
  code tests it.
* The Supabase table `email_events` is modelled as a list of records plus a
  fresh-id counter; `select/insert/update` become pure list operations.
* Off-nominal store behaviour the code has to react to (the existence-check
  query raising, an insert returning no created record, an update matching
  no row and returning an empty result) is captured by a `Behavior` record
  threaded through the handler.
* `serialized` values (`json.dumps(...)`) are kept as the underlying data
  (serialization is injective and never inspected by the code).
-/

namespace WebhookService

/-- The `data` object of an inbound payload (`payload.get("data", {})`).
Absent fields are `none` / `[]`. `device_info` and `location_info` stand
for the serialized form of `data.get("device_info", {})` and
`data.get("location_info", {})`. -/
structure PayloadData where
  email_id : Option String
  from_email : Option String
  to_list : List String
  subject : Option String
  tags : List String
  bounce_type : Option String
  bounce_subtype : Option String
  bounce_message : Option String
  click_ip : Option String
  click_link : Option String
  click_user_agent : Option String
  click_timestamp : Option String
  device_info : String
  location_info : String
  deriving DecidableEq

/-- An inbound webhook payload: `{type, created_at, data}`. -/
structure Payload where
  type : Option String
  created_at : Option String
  data : PayloadData
  deriving DecidableEq

/-- A row of the `email_events` table. `id` is the store-assigned identity;
the remaining fields mirror the keys the handler writes. A `none` models a
column this service never set for that row. -/
structure Record where
  id : Nat
  event_type : String
  created_at : Option String
  email_id : Option String
  from_email : Option String
  to_email : Option String
  subject : Option String
  tags : List String
  raw_payload : Payload
  processed_at : String
  bounce_type : Option String
  bounce_subtype : Option String
  bounce_message : Option String
  click_ip : Option String
  click_link : Option String
  click_user_agent : Option String
  click_timestamp : Option String
  opened_count : Option Nat
  first_opened_at : Option String
  last_opened_at : Option String
  device_info : Option String
  location_info : Option String
  deriving DecidableEq

/-- The `email_events` table: rows plus the next fresh row identity. -/
structure Store where
  records : List Record
  nextId : Nat
  deriving DecidableEq

/-- Off-nominal store behaviour for one handler call:
`queryRaises = some msg` makes the opened-existence `select` raise with
message `msg` (line 95); `insertEmpty` makes `insert(...).execute()` create
nothing and return no data (line 113); `updateEmpty` makes
`update(...).execute()` match no row, apply nothing and return no data
(line 105). -/
structure Behavior where
  queryRaises : Option String
  insertEmpty : Bool
  updateEmpty : Bool
  deriving DecidableEq

/-- The nominal store: queries succeed, inserts create, updates apply. -/
def goodBeh : Behavior := ⟨none, false, false⟩

/-- Exceptions raised inside the endpoint body. -/
inductive Exn where
  | http (code : Nat) (detail : String)
  | store (msg : String)
  deriving DecidableEq

/-- Python `str(e)`: starlette `HTTPException.__str__` is
`f"{status_code}: {detail}"`; for store exceptions it is the message. -/
def strExn : Exn → String
  | Exn.http c d => toString c ++ ": " ++ d
  | Exn.store m => m

/-- The endpoint's observable outcome: the success JSON
`{"status": "success", "message": ...}` or a raised `HTTPException`. -/
inductive Response where
  | ok (message : String)
  | httpError (code : Nat) (detail : String)
  deriving DecidableEq

/-- `event_type = payload.get("type"); if not event_type: ...` — the
effective event type: `none` when the field is absent or empty (falsy). -/
def effType (p : Payload) : Option String :=
  match p.type with
  | none => none
  | some s => if s = "" then none else some s

/-- Line 60: `data.get("to", [])[0] if data.get("to") else None`. -/
def toEmailOf (d : PayloadData) : Option String :=
  match d.to_list with
  | [] => none
  | x :: _ => some x

/-- Lines 55-65: the common `webhook_data` fields, attached to row id
`idv`. `now` models `datetime.utcnow().isoformat()`. -/
def baseRecord (idv : Nat) (et : String) (p : Payload) (now : String) : Record :=
  { id := idv
    event_type := et
    created_at := p.created_at
    email_id := p.data.email_id
    from_email := p.data.from_email
    to_email := toEmailOf p.data
    subject := p.data.subject
    tags := p.data.tags
    raw_payload := p
    processed_at := now
    bounce_type := none
    bounce_subtype := none
    bounce_message := none
    click_ip := none
    click_link := none
    click_user_agent := none
    click_timestamp := none
    opened_count := none
    first_opened_at := none
    last_opened_at := none
    device_info := none
    location_info := none }

/-- Lines 67-90: `webhook_data` after the event-specific `update(...)`,
as the row the insert path stores. -/
def eventRecord (idv : Nat) (et : String) (p : Payload) (now : String) : Record :=
  if et = "email.bounced" then
    { baseRecord idv et p now with
      bounce_type := p.data.bounce_type
      bounce_subtype := p.data.bounce_subtype
      bounce_message := p.data.bounce_message }
  else if et = "email.clicked" then
    { baseRecord idv et p now with
      click_ip := p.data.click_ip
      click_link := p.data.click_link
      click_user_agent := p.data.click_user_agent
      click_timestamp := p.data.click_timestamp }
  else if et = "email.opened" then
    { baseRecord idv et p now with
      opened_count := some 1
      first_opened_at := p.created_at
      last_opened_at := p.created_at
      device_info := some p.data.device_info
      location_info := some p.data.location_info }
  else baseRecord idv et p now

/-- Lines 96-101: the row after the in-place update for a repeated opened
event. The update dict contains the common and opened-specific keys, so
those columns are overwritten; `id` and the bounce/click columns are not
keys of `webhook_data` and keep their stored values.
`opened_count` is `existing_event.get("opened_count", 0) + 1`,
`first_opened_at` is `existing_event.get("first_opened_at", created_at)`,
`last_opened_at` is the current event's `created_at`. -/
def openedUpdateRecord (old : Record) (et : String) (p : Payload) (now : String) : Record :=
  { baseRecord old.id et p now with
    bounce_type := old.bounce_type
    bounce_subtype := old.bounce_subtype
    bounce_message := old.bounce_message
    click_ip := old.click_ip
    click_link := old.click_link
    click_user_agent := old.click_user_agent
    click_timestamp := old.click_timestamp
    opened_count := some (old.opened_count.getD 0 + 1)
    first_opened_at := old.first_opened_at.or p.created_at
    last_opened_at := p.created_at
    device_info := some p.data.device_info
    location_info := some p.data.location_info }

/-- Line 95: `select("*").eq("email_id", data.get("email_id"))
.eq("event_type", "email.opened").execute().data`. -/
def openedMatches (eid : Option String) (st : Store) : List Record :=
  st.records.filter (fun r => decide (r.email_id = eid ∧ r.event_type = "email.opened"))

/-- Line 105: `update(webhook_data).eq("id", tid).execute()` — replace
every row whose `id` is `tid` by `new`. -/
def updateById (st : Store) (tid : Nat) (new : Record) : Store :=
  ⟨st.records.map (fun q => if q.id = tid then new else q), st.nextId⟩

/-- Lines 111-120: the insert path. An insert whose result carries no data
raises `HTTPException(500, "Failed to store webhook data")`. -/
def insertStep (beh : Behavior) (now : String) (st : Store) (et : String) (p : Payload) :
    Except Exn (Store × String) :=
  if beh.insertEmpty then Except.error (Exn.http 500 "Failed to store webhook data")
  else Except.ok (⟨st.records ++ [eventRecord st.nextId et p now], st.nextId + 1⟩,
    "Stored " ++ et ++ " event")

/-- Lines 35-120: the body of the endpoint's `try` block. Errors are the
exceptions it raises. -/
def handleBody (beh : Behavior) (now : String) (st : Store) (p : Payload) :
    Except Exn (Store × String) :=
  match effType p with
  | none => Except.error (Exn.http 400 "Missing event type")
  | some et =>
    if et = "email.opened" then
      match beh.queryRaises with
      | some msg => Except.error (Exn.store msg)
      | none =>
        match openedMatches p.data.email_id st with
        | existing :: _ =>
          if beh.updateEmpty then Except.ok (st, "Updated " ++ et ++ " event")
          else Except.ok (updateById st existing.id (openedUpdateRecord existing et p now),
            "Updated " ++ et ++ " event")
        | [] => insertStep beh now st et p
    else insertStep beh now st et p

/-- Lines 33-124: the whole endpoint. The outer
`except Exception as e: raise HTTPException(status_code=500, detail=str(e))`
catches every exception raised in the body — `HTTPException` included,
since it subclasses `Exception` — and re-raises it with status 500. -/
def handle_webhook (beh : Behavior) (now : String) (st : Store) (p : Payload) :
    Store × Response :=
  match handleBody beh now st p with
  | Except.ok (st1, msg) => (st1, Response.ok msg)
  | Except.error e => (st, Response.httpError 500 (strExn e))

/-- A sequence of handled calls under one store behaviour: each element is
a payload together with its processing time. -/
def runSeq (beh : Behavior) (st0 : Store) (inputs : List (Payload × String)) : Store :=
  inputs.foldl (fun s q => (handle_webhook beh q.2 s q.1).1) st0

/-! ### Store well-formedness and the abstraction of opened aggregation -/

/-- Well-formed store: row identities are pairwise distinct and below the
fresh-id counter (the store's primary-key discipline). -/
def StoreWF (st : Store) : Prop :=
  st.records.Pairwise (fun a b => a.id ≠ b.id) ∧ ∀ r ∈ st.records, r.id < st.nextId

/-- The aggregation-relevant projection of a row. -/
def absRec (r : Record) : Option Nat × Option String × Option String :=
  (r.opened_count, r.first_opened_at, r.last_opened_at)

/-- Abstract effect of one opened event with timestamp `c` on the (at most
one) aggregated row. -/
def absStep (a : Option (Option Nat × Option String × Option String)) (c : Option String) :
    Option (Option Nat × Option String × Option String) :=
  match a with
  | none => some (some 1, c, c)
  | some (k, f, _) => some (some (k.getD 0 + 1), f.or c, c)

/-- View an optional aggregated row as a list of zero or one rows. -/
def absOf : Option (Option Nat × Option String × Option String) →
    List (Option Nat × Option String × Option String)
  | none => []
  | some t => [t]

/-- Is `p` an opened event whose correlation key is `eid`? -/
def isOpenedFor (eid : Option String) (p : Payload) : Bool :=
  decide (effType p = some "email.opened" ∧ p.data.email_id = eid)

/-- The opened events for key `eid` within a call sequence. -/
def opensFor (eid : Option String) (inputs : List (Payload × String)) :
    List (Payload × String) :=
  inputs.filter (fun q => isOpenedFor eid q.1)

/-- Their `created_at` timestamps, in order. -/
def credsOf (eid : Option String) (inputs : List (Payload × String)) : List (Option String) :=
  (opensFor eid inputs).map (fun q => q.1.created_at)

/-- First non-null element of a list of optional timestamps. -/
def firstSome : List (Option String) → Option String
  | [] => none
  | c :: cs => c.or (firstSome cs)

/-! ### The diagnostic endpoint (lines 126-154) -/

/-- The environment configuration read at startup (lines 17-19). -/
structure Config where
  SUPABASE_URL : Option String
  SUPABASE_SERVICE_ROLE_KEY : Option String
  RESEND_WEBHOOK_SECRET : Option String
  deriving DecidableEq

/-- Python `bool(x)` for an optional environment string: `False` for a
missing variable and for the empty string. -/
def truthy : Option String → Bool
  | none => false
  | some s => !s.isEmpty

/-- The `environment_vars_set` object (lines 137-141 and 149-153). -/
structure EnvReport where
  supabase_url_set : Bool
  service_role_key_set : Bool
  webhook_secret_set : Bool
  deriving DecidableEq

def envVarsSet (c : Config) : EnvReport :=
  ⟨truthy c.SUPABASE_URL, truthy c.SUPABASE_SERVICE_ROLE_KEY, truthy c.RESEND_WEBHOOK_SECRET⟩

/-- The JSON object returned by `/test-connection`; `supabase_url` is a key
of the success response only, `error` of the failure response only. -/
structure ConnResponse where
  status : String
  supabase_connected : Bool
  supabase_url : Option String
  error : Option String
  environment_vars_set : EnvReport
  deriving DecidableEq

/-- Lines 126-154: `test_connection`. `connError = some e` models the
trivial read against the store raising with message `e`. The startup check
(lines 21-22) guarantees `SUPABASE_URL` is set; `getD ""` stands for that
unreachable branch. -/
def test_connection (c : Config) (connError : Option String) : ConnResponse :=
  match connError with
  | none =>
    { status := "healthy"
      supabase_connected := true
      supabase_url := some ((c.SUPABASE_URL.getD "").take 20 ++ "...")
      error := none
      environment_vars_set := envVarsSet c }
  | some e =>
    { status := "error"
      supabase_connected := false
      supabase_url := none
      error := some e
      environment_vars_set := envVarsSet c }

/-! ### Concrete fixtures for witnesses and counterexamples -/

/-- A typical `data` object of an opened event for email `"E1"`. -/
def pdW : PayloadData :=
  ⟨some "E1", some "sender@x.com", ["a@x.com", "b@x.com"], some "hello", [],
    none, none, none, none, none, none, none, "dev", "loc"⟩

/-- The same `data` with the `to` list absent. -/
def pdWempty : PayloadData :=
  ⟨some "E1", none, [], none, [], none, none, none, none, none, none, none, "dev", "loc"⟩

def pW1 : Payload := ⟨some "email.opened", some "T1", pdW⟩

def pW2 : Payload := ⟨some "email.opened", some "T2", pdW⟩

def pWnoType : Payload := ⟨none, some "T1", pdW⟩

def pWdeliv : Payload := ⟨some "email.delivered", some "T1", pdW⟩

def stEmpty : Store := ⟨[], 0⟩

/-- The row stored for the first opened event of the fixture. -/
def rW : Record := eventRecord 0 "email.opened" pW1 "N1"

/-- A store already holding that row. -/
def stOne : Store := ⟨[rW], 1⟩

/-! ### Generic list lemmas -/

theorem map_eq_singleton {α β : Type} (f : α → β) {l : List α} {y : β}
    (h : l.map f = [y]) : ∃ x, l = [x] ∧ f x = y := by
  cases l with
  | nil => simp at h
  | cons a t =>
    cases t with
    | nil => exact ⟨a, rfl, by simpa using h⟩
    | cons b t2 => simp at h

theorem filter_map_congr {α : Type} (f : α → α) (P : α → Bool) (l : List α)
    (h : ∀ q ∈ l, P (f q) = P q ∧ (P q = true → f q = q)) :
    (l.map f).filter P = l.filter P := by
  induction l with
  | nil => simp
  | cons a t ih =>
    obtain ⟨h1, h2⟩ := h a (List.mem_cons_self a t)
    have ht := ih (fun q hq => h q (List.mem_cons_of_mem a hq))
    by_cases hPa : P a = true
    · simp only [List.map_cons, List.filter_cons, h1, hPa, if_true, h2 hPa, ht]
    · have hPa2 : P a = false := by revert hPa; cases P a <;> simp
      simp only [List.map_cons, List.filter_cons, h1, hPa2, Bool.false_eq_true, if_false, ht]

theorem filter_map_replace {α : Type} (f : α → α) (P : α → Bool) (l : List α) (r r2 : α)
    (hl : l.filter P = [r]) (hfr : f r = r2) (hPr : P r2 = true)
    (hother : ∀ q ∈ l, P q = false → P (f q) = false ∧ f q = q) :
    (l.map f).filter P = [r2] := by
  induction l with
  | nil => simp at hl
  | cons a t ih =>
    by_cases hPa : P a = true
    · rw [List.filter_cons_of_pos hPa] at hl
      have har : a = r := by
        have := List.head_eq_of_cons_eq hl
        exact this
      have htnil : t.filter P = [] := List.tail_eq_of_cons_eq hl
      have hall : ∀ q ∈ t, P q = false := by
        intro q hq
        have := List.filter_eq_nil_iff.mp htnil q hq
        revert this; cases P q <;> simp
      have hmapnil : (t.map f).filter P = [] := by
        apply List.filter_eq_nil_iff.mpr
        intro b hb
        obtain ⟨q, hq, rfl⟩ := List.mem_map.mp hb
        simp [(hother q (List.mem_cons_of_mem a hq) (hall q hq)).1]
      rw [List.map_cons, har, hfr, List.filter_cons_of_pos hPr, hmapnil]
    · have hPa2 : P a = false := by revert hPa; cases P a <;> simp
      rw [List.filter_cons_of_neg (by simp [hPa2])] at hl
      obtain ⟨hfa1, hfa2⟩ := hother a (List.mem_cons_self a t) hPa2
      rw [List.map_cons, List.filter_cons_of_neg (by simp [hfa1])]
      exact ih hl (fun q hq hPq => hother q (List.mem_cons_of_mem a hq) hPq)

theorem id_unique {l : List Record} (hp : l.Pairwise (fun a b => a.id ≠ b.id))
    {r q : Record} (hr : r ∈ l) (hq : q ∈ l) (hid : q.id = r.id) : q = r := by
  induction l with
  | nil => simp at hr
  | cons a t ih =>
    have hp2 := List.pairwise_cons.mp hp
    rcases List.mem_cons.mp hr with hra | hrt
    · rcases List.mem_cons.mp hq with hqa | hqt
      · rw [hqa, hra]
      · exact absurd (hid.symm ▸ (hp2.1 q hqt).symm) (by rw [hra]; simp)
    · rcases List.mem_cons.mp hq with hqa | hqt
      · exact absurd hid (by rw [hqa]; exact hp2.1 r hrt)
      · exact ih hp2.2 hrt hqt

/-! ### Shape lemmas about the records the handler writes -/

theorem eventRecord_event_type (idv : Nat) (et : String) (p : Payload) (now : String) :
    (eventRecord idv et p now).event_type = et := by
  rw [eventRecord]
  split_ifs <;> rfl

theorem eventRecord_id (idv : Nat) (et : String) (p : Payload) (now : String) :
    (eventRecord idv et p now).id = idv := by
  rw [eventRecord]
  split_ifs <;> rfl

theorem eventRecord_to_email (idv : Nat) (et : String) (p : Payload) (now : String) :
    (eventRecord idv et p now).to_email = toEmailOf p.data := by
  rw [eventRecord]
  split_ifs <;> rfl

theorem eventRecord_opened (idv : Nat) (p : Payload) (now : String) :
    eventRecord idv "email.opened" p now =
    { baseRecord idv "email.opened" p now with
      opened_count := some 1
      first_opened_at := p.created_at
      last_opened_at := p.created_at
      device_info := some p.data.device_info
      location_info := some p.data.location_info } := by
  rw [eventRecord, if_neg (by decide), if_neg (by decide), if_pos rfl]

/-! ### Well-formedness preservation -/

theorem wf_append (st : Store) (r : Record) (h : StoreWF st) (hid : r.id = st.nextId) :
    StoreWF ⟨st.records ++ [r], st.nextId + 1⟩ := by
  obtain ⟨hp, hb⟩ := h
  constructor
  · rw [List.pairwise_append]
    refine ⟨hp, by simp, ?_⟩
    intro a ha b hb2
    simp only [List.mem_singleton] at hb2
    subst hb2
    have := hb a ha
    omega
  · intro q hq
    rcases List.mem_append.mp hq with h1 | h2
    · have := hb q h1
      simp only []
      omega
    · simp only [List.mem_singleton] at h2
      subst h2
      simp only []
      omega

theorem wf_update (st : Store) (tid : Nat) (new : Record) (h : StoreWF st)
    (hid : new.id = tid) : StoreWF (updateById st tid new) := by
  obtain ⟨hp, hb⟩ := h
  have hidpres : ∀ q : Record, (if q.id = tid then new else q).id = q.id := by
    intro q
    by_cases hq : q.id = tid
    · simp [hq, hid]
    · simp [hq]
  constructor
  · rw [updateById]
    simp only []
    rw [List.pairwise_map]
    exact hp.imp (fun h2 => by rw [hidpres, hidpres]; exact h2)
  · intro q hq
    rw [updateById] at hq
    simp only [List.mem_map] at hq
    obtain ⟨x, hx, rfl⟩ := hq
    rw [hidpres]
    exact hb x hx

/-! ### Case characterizations of one handled call -/

theorem handle_noType (beh : Behavior) (now : String) (st : Store) (p : Payload)
    (h : effType p = none) :
    handle_webhook beh now st p =
      (st, Response.httpError 500 (strExn (Exn.http 400 "Missing event type"))) := by
  simp [handle_webhook, handleBody, h]

theorem handle_other_insert (beh : Behavior) (now : String) (st : Store) (p : Payload)
    (et : String) (h : effType p = some et) (hop : et ≠ "email.opened")
    (hins : beh.insertEmpty = false) :
    handle_webhook beh now st p =
      (⟨st.records ++ [eventRecord st.nextId et p now], st.nextId + 1⟩,
        Response.ok ("Stored " ++ et ++ " event")) := by
  simp [handle_webhook, handleBody, h, hop, insertStep, hins]

theorem handle_opened_insert (beh : Behavior) (now : String) (st : Store) (p : Payload)
    (h : effType p = some "email.opened") (hq : beh.queryRaises = none)
    (hm : openedMatches p.data.email_id st = []) (hins : beh.insertEmpty = false) :
    handle_webhook beh now st p =
      (⟨st.records ++ [eventRecord st.nextId "email.opened" p now], st.nextId + 1⟩,
        Response.ok ("Stored " ++ "email.opened" ++ " event")) := by
  simp [handle_webhook, handleBody, h, hq, hm, insertStep, hins]

theorem handle_opened_update (beh : Behavior) (now : String) (st : Store) (p : Payload)
    (r0 : Record) (rest0 : List Record)
    (h : effType p = some "email.opened") (hq : beh.queryRaises = none)
    (hm : openedMatches p.data.email_id st = r0 :: rest0) (hup : beh.updateEmpty = false) :
    handle_webhook beh now st p =
      (updateById st r0.id (openedUpdateRecord r0 "email.opened" p now),
        Response.ok ("Updated " ++ "email.opened" ++ " event")) := by
  simp [handle_webhook, handleBody, h, hq, hm, hup]

theorem handle_opened_update_empty (beh : Behavior) (now : String) (st : Store) (p : Payload)
    (r0 : Record) (rest0 : List Record)
    (h : effType p = some "email.opened") (hq : beh.queryRaises = none)
    (hm : openedMatches p.data.email_id st = r0 :: rest0) (hup : beh.updateEmpty = true) :
    handle_webhook beh now st p =
      (st, Response.ok ("Updated " ++ "email.opened" ++ " event")) := by
  simp [handle_webhook, handleBody, h, hq, hm, hup]

theorem handle_opened_queryRaises (beh : Behavior) (now : String) (st : Store) (p : Payload)
    (msg : String) (h : effType p = some "email.opened") (hq : beh.queryRaises = some msg) :
    handle_webhook beh now st p = (st, Response.httpError 500 msg) := by
  simp [handle_webhook, handleBody, h, hq, strExn]

theorem handle_insertEmpty (beh : Behavior) (now : String) (st : Store) (p : Payload)
    (et : String) (h : effType p = some et) (hins : beh.insertEmpty = true)
    (hpath : et ≠ "email.opened" ∨
      (beh.queryRaises = none ∧ openedMatches p.data.email_id st = [])) :
    handle_webhook beh now st p =
      (st, Response.httpError 500 (strExn (Exn.http 500 "Failed to store webhook data"))) := by
  rcases hpath with hop | ⟨hq, hm⟩
  · simp [handle_webhook, handleBody, h, hop, insertStep, hins]
  · by_cases hop : et = "email.opened"
    · subst hop
      simp [handle_webhook, handleBody, h, hq, hm, insertStep, hins]
    · simp [handle_webhook, handleBody, h, hop, insertStep, hins]

/-! ### The abstraction step lemma -/

theorem absOf_eq_nil (a : Option (Option Nat × Option String × Option String))
    (h : absOf a = []) : a = none := by
  cases a with
  | none => rfl
  | some t => simp [absOf] at h

theorem step_abs (E : Option String) (st : Store) (p : Payload) (now : String)
    (a : Option (Option Nat × Option String × Option String))
    (hwf : StoreWF st) (habs : (openedMatches E st).map absRec = absOf a) :
    StoreWF (handle_webhook goodBeh now st p).1 ∧
    (openedMatches E (handle_webhook goodBeh now st p).1).map absRec =
      absOf (if isOpenedFor E p then absStep a p.created_at else a) := by
  cases het : effType p with
  | none =>
    have hop : isOpenedFor E p = false := by simp [isOpenedFor, het]
    rw [handle_noType goodBeh now st p het]
    simp only [hop, Bool.false_eq_true, if_false]
    exact ⟨hwf, habs⟩
  | some et =>
    by_cases hopet : et = "email.opened"
    · subst hopet
      cases hm : openedMatches p.data.email_id st with
      | nil =>
        rw [handle_opened_insert goodBeh now st p het rfl hm rfl]
        refine ⟨wf_append st _ hwf (eventRecord_id _ _ _ _), ?_⟩
        by_cases hE : p.data.email_id = E
        · have hop : isOpenedFor E p = true := by simp [isOpenedFor, het, hE]
          have ha : a = none := by
            apply absOf_eq_nil
            rw [← habs]
            rw [hE] at hm
            rw [hm]
            rfl
          subst ha
          simp only [hop, if_true]
          simp only [openedMatches, List.filter_append]
          rw [hE] at hm
          have hm2 : List.filter
              (fun r => decide (r.email_id = E ∧ r.event_type = "email.opened"))
              st.records = [] := hm
          rw [hm2]
          simp only [List.nil_append]
          rw [eventRecord_opened]
          simp [baseRecord, absRec, absStep, absOf, hE]
        · have hop : isOpenedFor E p = false := by simp [isOpenedFor, hE]
          simp only [hop, Bool.false_eq_true, if_false]
          simp only [openedMatches, List.filter_append]
          have hnew : (List.filter
              (fun r => decide (r.email_id = E ∧ r.event_type = "email.opened"))
              [eventRecord st.nextId "email.opened" p now]) = [] := by
            rw [eventRecord_opened]
            simp [baseRecord, hE]
          rw [hnew, List.append_nil]
          exact habs
      | cons r0 rest0 =>
        have hr0 : r0 ∈ st.records ∧ r0.email_id = p.data.email_id ∧
            r0.event_type = "email.opened" := by
          have hmem : r0 ∈ openedMatches p.data.email_id st := by
            rw [hm]
            exact List.mem_cons_self r0 rest0
          have h2 := List.mem_filter.mp hmem
          refine ⟨h2.1, ?_⟩
          have := of_decide_eq_true h2.2
          exact this
        rw [handle_opened_update goodBeh now st p r0 rest0 het rfl hm rfl]
        have hupid : (openedUpdateRecord r0 "email.opened" p now).id = r0.id := rfl
        refine ⟨wf_update st r0.id _ hwf hupid, ?_⟩
        by_cases hE : p.data.email_id = E
        · have hop : isOpenedFor E p = true := by simp [isOpenedFor, het, hE]
          rw [hE] at hm
          have habs2 := habs
          rw [hm] at habs2
          cases a with
          | none => simp [absOf] at habs2
          | some t =>
            simp only [absOf, List.map_cons] at habs2
            have hr0t : absRec r0 = t := List.head_eq_of_cons_eq habs2
            have hrest : rest0 = [] := by
              have := List.tail_eq_of_cons_eq habs2
              exact List.map_eq_nil_iff.mp this
            subst hrest
            simp only [hop, if_true]
            have hrepl : ((st.records.map
                (fun q => if q.id = r0.id then openedUpdateRecord r0 "email.opened" p now
                  else q)).filter
                (fun r => decide (r.email_id = E ∧ r.event_type = "email.opened"))) =
                [openedUpdateRecord r0 "email.opened" p now] := by
              apply filter_map_replace _ _ _ r0
              · exact hm
              · simp
              · simp [openedUpdateRecord, baseRecord, hE]
              · intro q hq hPq
                by_cases hqid : q.id = r0.id
                · have hq0 : q = r0 := id_unique hwf.1 hr0.1 hq hqid
                  rw [hq0] at hPq
                  have hdec : (decide (r0.email_id = E ∧
                      r0.event_type = "email.opened")) = true := by
                    simp [hr0.2.1, hr0.2.2, hE]
                  rw [hdec] at hPq
                  exact absurd hPq (by simp)
                · simp [hqid, hPq]
            rw [show openedMatches E (updateById st r0.id
                (openedUpdateRecord r0 "email.opened" p now)) =
              ((st.records.map
                (fun q => if q.id = r0.id then openedUpdateRecord r0 "email.opened" p now
                  else q)).filter
                (fun r => decide (r.email_id = E ∧ r.event_type = "email.opened"))) from rfl]
            rw [hrepl]
            rw [← hr0t]
            simp only [List.map_cons, List.map_nil]
            rfl
        · have hop : isOpenedFor E p = false := by simp [isOpenedFor, hE]
          simp only [hop, Bool.false_eq_true, if_false]
          have hcongr : ((st.records.map
              (fun q => if q.id = r0.id then openedUpdateRecord r0 "email.opened" p now
                else q)).filter
              (fun r => decide (r.email_id = E ∧ r.event_type = "email.opened"))) =
              (st.records.filter
              (fun r => decide (r.email_id = E ∧ r.event_type = "email.opened"))) := by
            apply filter_map_congr
            intro q hq
            by_cases hqid : q.id = r0.id
            · have hq0 : q = r0 := id_unique hwf.1 hr0.1 hq hqid
              subst hq0
              constructor
              · simp only [hqid, if_true]
                have h1 : (decide (q.email_id = E ∧ q.event_type = "email.opened")) = false := by
                  simp [hr0.2.1, hE]
                have h2 : (decide ((openedUpdateRecord q "email.opened" p now).email_id = E ∧
                    (openedUpdateRecord q "email.opened" p now).event_type =
                      "email.opened")) = false := by
                  simp [openedUpdateRecord, baseRecord, hE]
                rw [h1, h2]
              · intro hPq
                have : (decide (q.email_id = E ∧ q.event_type = "email.opened")) = false := by
                  simp [hr0.2.1, hE]
                rw [this] at hPq
                exact absurd hPq (by simp)
            · simp [hqid]
          rw [show openedMatches E (updateById st r0.id
              (openedUpdateRecord r0 "email.opened" p now)) =
            ((st.records.map
              (fun q => if q.id = r0.id then openedUpdateRecord r0 "email.opened" p now
                else q)).filter
              (fun r => decide (r.email_id = E ∧ r.event_type = "email.opened"))) from rfl]
          rw [hcongr]
          exact habs
    · have hop : isOpenedFor E p = false := by simp [isOpenedFor, het, hopet]
      rw [handle_other_insert goodBeh now st p et het hopet rfl]
      refine ⟨wf_append st _ hwf (eventRecord_id _ _ _ _), ?_⟩
      simp only [hop, Bool.false_eq_true, if_false]
      simp only [openedMatches, List.filter_append]
      have hnew : (List.filter
          (fun r => decide (r.email_id = E ∧ r.event_type = "email.opened"))
          [eventRecord st.nextId et p now]) = [] := by
        simp [List.filter, eventRecord_event_type, hopet]
      rw [hnew, List.append_nil]
      exact habs

/-! ### Running a whole call sequence -/

theorem run_abs (E : Option String) (inputs : List (Payload × String)) :
    ∀ (st : Store) (a : Option (Option Nat × Option String × Option String)),
      StoreWF st → (openedMatches E st).map absRec = absOf a →
      StoreWF (runSeq goodBeh st inputs) ∧
      (openedMatches E (runSeq goodBeh st inputs)).map absRec =
        absOf ((credsOf E inputs).foldl absStep a) := by
  induction inputs with
  | nil =>
    intro st a hwf habs
    exact ⟨hwf, by simpa [runSeq, credsOf, opensFor] using habs⟩
  | cons q rest ih =>
    intro st a hwf habs
    have hstep := step_abs E st q.1 q.2 a hwf habs
    have hrun : runSeq goodBeh st (q :: rest) =
        runSeq goodBeh (handle_webhook goodBeh q.2 st q.1).1 rest := rfl
    rw [hrun]
    by_cases hop : isOpenedFor E q.1 = true
    · have hcreds : credsOf E (q :: rest) = q.1.created_at :: credsOf E rest := by
        simp [credsOf, opensFor, List.filter_cons, hop]
      rw [hcreds, List.foldl_cons]
      apply ih _ _ hstep.1
      rw [hstep.2, hop]
      simp
    · have hop2 : isOpenedFor E q.1 = false := by
        revert hop
        cases isOpenedFor E q.1 <;> simp
      have hcreds : credsOf E (q :: rest) = credsOf E rest := by
        simp [credsOf, opensFor, List.filter_cons, hop2]
      rw [hcreds]
      apply ih _ _ hstep.1
      rw [hstep.2, hop2]
      simp

/-! ### Pure facts about the abstract fold -/

theorem or_assoc_opt (f c x : Option String) : (f.or c).or x = f.or (c.or x) := by
  cases f <;> rfl

theorem firstSome_append (l1 l2 : List (Option String)) :
    firstSome (l1 ++ l2) = (firstSome l1).or (firstSome l2) := by
  induction l1 with
  | nil => rfl
  | cons c t ih =>
    rw [List.cons_append]
    rw [show firstSome (c :: (t ++ l2)) = c.or (firstSome (t ++ l2)) from rfl]
    rw [ih]
    rw [show firstSome (c :: t) = c.or (firstSome t) from rfl]
    exact (or_assoc_opt c (firstSome t) (firstSome l2)).symm

theorem getLastD_append_singleton {α : Type} (l : List α) (x d : α) :
    (l ++ [x]).getLastD d = x := by
  induction l generalizing d with
  | nil => rfl
  | cons a t ih =>
    rw [List.cons_append, List.getLastD_cons]
    exact ih a

theorem absFold_some (cs : List (Option String)) :
    ∀ (k : Nat) (f l : Option String),
      cs.foldl absStep (some (some k, f, l)) =
        some (some (k + cs.length), f.or (firstSome cs), cs.getLastD l) := by
  induction cs with
  | nil =>
    intro k f l
    simp only [List.foldl_nil, List.length_nil, Nat.add_zero, firstSome, List.getLastD_nil]
    cases f <;> rfl
  | cons c cs ih =>
    intro k f l
    simp only [List.foldl_cons]
    rw [show absStep (some (some k, f, l)) c = some (some (k + 1), f.or c, c) from rfl]
    rw [ih (k + 1) (f.or c) c]
    simp only [Option.some.injEq, Prod.mk.injEq]
    refine ⟨by simp [List.length_cons]; omega, ?_, ?_⟩
    · rw [show firstSome (c :: cs) = c.or (firstSome cs) from rfl]
      exact or_assoc_opt f c (firstSome cs)
    · rw [List.getLastD_cons]

theorem absFold_cons (c : Option String) (cs : List (Option String)) :
    (c :: cs).foldl absStep none =
      some (some (cs.length + 1), firstSome (c :: cs), cs.getLastD c) := by
  simp only [List.foldl_cons]
  rw [show absStep none c = some (some 1, c, c) from rfl]
  rw [absFold_some cs 1 c c]
  simp only [Option.some.injEq, Prod.mk.injEq]
  refine ⟨by omega, ?_, ?_⟩ <;> simp [firstSome]

theorem credsOf_append (E : Option String) (l1 l2 : List (Payload × String)) :
    credsOf E (l1 ++ l2) = credsOf E l1 ++ credsOf E l2 := by
  simp [credsOf, opensFor, List.filter_append]

/-- Full description of the aggregated row after a call sequence, starting
from a well-formed store with no opened record for the key. -/
theorem run_record (E : String) (st0 : Store) (inputs : List (Payload × String))
    (hwf : StoreWF st0) (h0 : openedMatches (some E) st0 = [])
    {r : Record} (hr : r ∈ openedMatches (some E) (runSeq goodBeh st0 inputs)) :
    ∃ c cs, credsOf (some E) inputs = c :: cs ∧
      openedMatches (some E) (runSeq goodBeh st0 inputs) = [r] ∧
      r.opened_count = some (cs.length + 1) ∧
      r.first_opened_at = firstSome (c :: cs) ∧
      r.last_opened_at = cs.getLastD c := by
  have hbase : (openedMatches (some E) st0).map absRec = absOf none := by
    rw [h0]
    rfl
  obtain ⟨-, hmain⟩ := run_abs (some E) inputs st0 none hwf hbase
  cases hcs : credsOf (some E) inputs with
  | nil =>
    rw [hcs] at hmain
    simp only [List.foldl_nil, absOf] at hmain
    rw [List.map_eq_nil_iff.mp hmain] at hr
    simp at hr
  | cons c cs =>
    rw [hcs, absFold_cons] at hmain
    simp only [absOf] at hmain
    obtain ⟨x, hx, hfx⟩ := map_eq_singleton absRec hmain
    have hrx : r = x := by
      rw [hx] at hr
      simpa using hr
    subst hrx
    simp only [absRec, Prod.mk.injEq] at hfx
    exact ⟨c, cs, rfl, hx, hfx.1, hfx.2.1, hfx.2.2⟩

/-- C1: for a given email_id `E`, across any sequence of handled webhook
calls under the nominal store, starting from a well-formed store with no
(E, email.opened) record: the store holds at most one (E, email.opened)
record at any time; its opened_count never decreases between any prefix of
the run and the full run; once first_opened_at holds a value it keeps it;
and last_opened_at equals the created_at of the most recently processed
opened event for E. -/
theorem opened_aggregation_invariant (E : String) (st0 : Store)
    (inputs : List (Payload × String))
    (hwf : StoreWF st0) (h0 : openedMatches (some E) st0 = []) :
    (openedMatches (some E) (runSeq goodBeh st0 inputs)).length ≤ 1
    ∧ (∀ pre suf, inputs = pre ++ suf →
        ∀ r ∈ openedMatches (some E) (runSeq goodBeh st0 pre),
          ∀ r2 ∈ openedMatches (some E) (runSeq goodBeh st0 inputs),
            r.opened_count.getD 0 ≤ r2.opened_count.getD 0
            ∧ ∀ v, r.first_opened_at = some v → r2.first_opened_at = some v)
    ∧ (∀ r ∈ openedMatches (some E) (runSeq goodBeh st0 inputs),
        ∃ pre2 q, opensFor (some E) inputs = pre2 ++ [q]
          ∧ r.last_opened_at = q.1.created_at) := by
  refine ⟨?_, ?_, ?_⟩
  · have hbase : (openedMatches (some E) st0).map absRec = absOf none := by
      rw [h0]
      rfl
    obtain ⟨-, hmain⟩ := run_abs (some E) inputs st0 none hwf hbase
    have hlen : (openedMatches (some E) (runSeq goodBeh st0 inputs)).length =
        (absOf ((credsOf (some E) inputs).foldl absStep none)).length := by
      rw [← hmain, List.length_map]
    rw [hlen]
    cases (credsOf (some E) inputs).foldl absStep none <;> simp [absOf]
  · intro pre suf hsplit r hr r2 hr2
    obtain ⟨c, cs, hcs, -, hcount, hfirst, -⟩ := run_record E st0 pre hwf h0 hr
    obtain ⟨c2, cs2, hcs2, -, hcount2, hfirst2, -⟩ := run_record E st0 inputs hwf h0 hr2
    have hlink : credsOf (some E) inputs = c :: (cs ++ credsOf (some E) suf) := by
      rw [hsplit, credsOf_append, hcs, List.cons_append]
    rw [hlink] at hcs2
    have hc2 : c2 = c := (List.head_eq_of_cons_eq hcs2.symm)
    have hcs2eq : cs2 = cs ++ credsOf (some E) suf := (List.tail_eq_of_cons_eq hcs2.symm)
    constructor
    · rw [hcount, hcount2, hcs2eq]
      simp [List.length_append]
    · intro v hv
      rw [hfirst] at hv
      rw [hfirst2, hc2, hcs2eq]
      rw [show (c :: (cs ++ credsOf (some E) suf)) = (c :: cs) ++ credsOf (some E) suf from rfl]
      rw [firstSome_append, hv]
      rfl
  · intro r hr
    obtain ⟨c, cs, hcs, -, -, -, hlast⟩ := run_record E st0 inputs hwf h0 hr
    rcases List.eq_nil_or_concat (opensFor (some E) inputs) with hnil | ⟨pre2, q, hconcat0⟩
    · rw [show credsOf (some E) inputs =
          (opensFor (some E) inputs).map (fun q => q.1.created_at) from rfl, hnil] at hcs
      simp at hcs
    · have hconcat : opensFor (some E) inputs = pre2 ++ [q] := by
        rw [hconcat0, List.concat_eq_append]
      refine ⟨pre2, q, hconcat, ?_⟩
      have hcreds2 : credsOf (some E) inputs =
          (pre2.map (fun q => q.1.created_at)) ++ [q.1.created_at] := by
        rw [show credsOf (some E) inputs =
            (opensFor (some E) inputs).map (fun q => q.1.created_at) from rfl, hconcat]
        simp
      rw [hlast]
      have : cs.getLastD c = (c :: cs).getLastD q.1.created_at := (List.getLastD_cons _ _ _).symm
      rw [this, ← hcs, hcreds2]
      exact getLastD_append_singleton _ _ _

/-- C1 witness: two opened events for `"E1"` on an initially empty store
leave at most one matching record. -/
theorem opened_aggregation_invariant_witness :
    (openedMatches (some "E1") (runSeq goodBeh stEmpty [(pW1, "N1"), (pW2, "N2")])).length ≤ 1 :=
  (opened_aggregation_invariant "E1" stEmpty [(pW1, "N1"), (pW2, "N2")]
    ⟨List.Pairwise.nil, by intro r hr; simp [stEmpty] at hr⟩ rfl).1

/-- C2: handling an `email.opened` payload for `E` when the store holds
exactly one matching record updates that record in place: same row id, the
count incremented from the previous count (default 0), first_opened_at
kept (falling back to the current created_at when previously absent),
last_opened_at overwritten with the current created_at, row count
unchanged, and a success response saying "Updated", not "Stored". -/
theorem opened_update_existing (beh : Behavior) (now : String) (st : Store) (p : Payload)
    (E : String) (r : Record)
    (hq : beh.queryRaises = none) (hu : beh.updateEmpty = false)
    (hwf : StoreWF st)
    (ht : effType p = some "email.opened")
    (he : p.data.email_id = some E)
    (hm : openedMatches (some E) st = [r]) :
    ∃ r2, openedMatches (some E) (handle_webhook beh now st p).1 = [r2]
      ∧ r2.id = r.id
      ∧ r2.opened_count = some (r.opened_count.getD 0 + 1)
      ∧ r2.first_opened_at = r.first_opened_at.or p.created_at
      ∧ r2.last_opened_at = p.created_at
      ∧ (handle_webhook beh now st p).1.records.length = st.records.length
      ∧ (handle_webhook beh now st p).2 = Response.ok "Updated email.opened event" := by
  have hm2 : openedMatches p.data.email_id st = [r] := by rw [he]; exact hm
  have hrmem : r ∈ st.records := by
    have : r ∈ openedMatches (some E) st := by
      rw [hm]
      exact List.mem_cons_self r []
    exact (List.mem_filter.mp this).1
  have hrpred : r.email_id = some E ∧ r.event_type = "email.opened" := by
    have : r ∈ openedMatches (some E) st := by
      rw [hm]
      exact List.mem_cons_self r []
    exact of_decide_eq_true (List.mem_filter.mp this).2
  rw [handle_opened_update beh now st p r [] ht hq hm2 hu]
  refine ⟨openedUpdateRecord r "email.opened" p now, ?_, rfl, rfl, rfl, rfl, ?_, ?_⟩
  · apply filter_map_replace _ _ _ r
    · exact hm
    · simp
    · simp [openedUpdateRecord, baseRecord, he]
    · intro q hq2 hPq
      by_cases hqid : q.id = r.id
      · have hq0 : q = r := id_unique hwf.1 hrmem hq2 hqid
        rw [hq0] at hPq
        have hdec : (decide (r.email_id = some E ∧ r.event_type = "email.opened")) = true := by
          simp [hrpred.1, hrpred.2]
        rw [hdec] at hPq
        exact absurd hPq (by simp)
      · simp [hqid, hPq]
  · simp [updateById]
  · rfl

/-- C2 witness: a second opened event for `"E1"` at `"T2"` against the
store already holding the first-open row. -/
theorem opened_update_existing_witness :
    ∃ r2, openedMatches (some "E1") (handle_webhook goodBeh "N2" stOne pW2).1 = [r2]
      ∧ r2.id = rW.id
      ∧ r2.opened_count = some (rW.opened_count.getD 0 + 1)
      ∧ r2.first_opened_at = rW.first_opened_at.or pW2.created_at
      ∧ r2.last_opened_at = pW2.created_at
      ∧ (handle_webhook goodBeh "N2" stOne pW2).1.records.length = stOne.records.length
      ∧ (handle_webhook goodBeh "N2" stOne pW2).2 =
          Response.ok "Updated email.opened event" :=
  opened_update_existing goodBeh "N2" stOne pW2 "E1" rW rfl rfl
    ⟨by simp [stOne], by intro r hr; simp [stOne] at hr; simp [hr, rW, eventRecord_id, stOne]⟩
    rfl rfl (by decide)

/-- C3: a first-time `email.opened` event (no matching record in the
store) with created_at `T` inserts a new row with opened_count 1 and
first_opened_at = last_opened_at = `T`, answering with the "Stored"
success message. -/
theorem opened_first_insert (beh : Behavior) (now : String) (st : Store) (p : Payload)
    (E T : String)
    (hq : beh.queryRaises = none) (hi : beh.insertEmpty = false)
    (ht : effType p = some "email.opened")
    (he : p.data.email_id = some E)
    (hT : p.created_at = some T)
    (hm : openedMatches (some E) st = []) :
    ∃ r, (handle_webhook beh now st p).1.records = st.records ++ [r]
      ∧ r.event_type = "email.opened"
      ∧ r.email_id = some E
      ∧ r.opened_count = some 1
      ∧ r.first_opened_at = some T
      ∧ r.last_opened_at = some T
      ∧ (handle_webhook beh now st p).2 = Response.ok "Stored email.opened event" := by
  have hm2 : openedMatches p.data.email_id st = [] := by rw [he]; exact hm
  rw [handle_opened_insert beh now st p ht hq hm2 hi]
  refine ⟨eventRecord st.nextId "email.opened" p now, rfl, ?_, ?_, ?_, ?_, ?_, rfl⟩
  · exact eventRecord_event_type _ _ _ _
  · rw [eventRecord_opened]
    simp [baseRecord, he]
  · rw [eventRecord_opened]
  · rw [eventRecord_opened]
    simp [hT]
  · rw [eventRecord_opened]
    simp [hT]

/-- C3 witness: the first opened event for `"E1"` at `"T1"` on the empty
store. -/
theorem opened_first_insert_witness :
    ∃ r, (handle_webhook goodBeh "N1" stEmpty pW1).1.records = stEmpty.records ++ [r]
      ∧ r.event_type = "email.opened"
      ∧ r.email_id = some "E1"
      ∧ r.opened_count = some 1
      ∧ r.first_opened_at = some "T1"
      ∧ r.last_opened_at = some "T1"
      ∧ (handle_webhook goodBeh "N1" stEmpty pW1).2 =
          Response.ok "Stored email.opened event" :=
  opened_first_insert goodBeh "N1" stEmpty pW1 "E1" "T1" rfl rfl rfl rfl rfl rfl

/-- A behaviour whose existence-check query raises. -/
def qbeh : Behavior := ⟨some "boom", false, false⟩

/-- C4 counterexample: with the existence-check query failing, an opened
payload yields an error response and no inserted row — the handler
re-raises (line 109) instead of falling through to the insert the claim
describes. -/
theorem opened_query_failure_counterexample :
    handle_webhook qbeh "N1" stEmpty pW1 = (stEmpty, Response.httpError 500 "boom") := by
  rfl

/-- C4 amended: when the opened-existence query fails unexpectedly, the
handler logs and re-raises; the failure propagates (converted to a 500 by
the outer handler) and no insert happens — the store is unchanged. -/
theorem opened_query_failure_propagates (beh : Behavior) (now : String) (st : Store)
    (p : Payload) (msg : String)
    (ht : effType p = some "email.opened") (hq : beh.queryRaises = some msg) :
    handle_webhook beh now st p = (st, Response.httpError 500 msg) :=
  handle_opened_queryRaises beh now st p msg ht hq

/-- C4 amended witness. -/
theorem opened_query_failure_propagates_witness :
    handle_webhook qbeh "N2" stOne pW2 = (stOne, Response.httpError 500 "boom") :=
  opened_query_failure_propagates qbeh "N2" stOne pW2 "boom" rfl rfl

/-- C5 (code-bug evidence): a payload with no `type` field is rejected
before any store access — the store is returned unchanged — but the
response status is 500, not the 400 of line 47: the inner
`HTTPException(400, "Missing event type")` is caught by the outer blanket
`except Exception` (line 122) and re-raised as
`HTTPException(500, str(e))`. -/
theorem missing_type_rejected_500 (beh : Behavior) (now : String) (st : Store) :
    handle_webhook beh now st pWnoType =
      (st, Response.httpError 500 "400: Missing event type") := by
  rw [handle_noType beh now st pWnoType rfl]
  rfl

/-- C6: whenever a handled payload reaches the insert path and the insert
returns no created record, the handler answers with a 500 storage-failure
error, never a success. -/
theorem insert_empty_is_storage_failure (beh : Behavior) (now : String) (st : Store)
    (p : Payload) (et : String)
    (ht : effType p = some et) (hi : beh.insertEmpty = true)
    (hpath : et ≠ "email.opened" ∨
      (beh.queryRaises = none ∧ openedMatches p.data.email_id st = [])) :
    handle_webhook beh now st p =
      (st, Response.httpError 500 "500: Failed to store webhook data") := by
  rw [handle_insertEmpty beh now st p et ht hi hpath]
  rfl

/-- C6 witness: a first-time opened event whose insert returns nothing. -/
theorem insert_empty_is_storage_failure_witness :
    handle_webhook ⟨none, true, false⟩ "N1" stEmpty pW1 =
      (stEmpty, Response.httpError 500 "500: Failed to store webhook data") :=
  insert_empty_is_storage_failure ⟨none, true, false⟩ "N1" stEmpty pW1 "email.opened"
    rfl rfl (Or.inr ⟨rfl, rfl⟩)

/-- C7: the handler is not idempotent for opened events — handling the
very same opened payload twice from a store with no matching record
leaves a record whose opened_count is 2: each replay increments. -/
theorem opened_replay_not_idempotent (E : String) (st0 : Store) (p : Payload)
    (now1 now2 : String)
    (hwf : StoreWF st0)
    (ht : effType p = some "email.opened")
    (he : p.data.email_id = some E)
    (hm : openedMatches (some E) st0 = []) :
    ∃ r, openedMatches (some E) (runSeq goodBeh st0 [(p, now1), (p, now2)]) = [r]
      ∧ r.opened_count = some 2 := by
  have hbase : (openedMatches (some E) st0).map absRec = absOf none := by
    rw [hm]
    rfl
  obtain ⟨-, hmain⟩ := run_abs (some E) [(p, now1), (p, now2)] st0 none hwf hbase
  have hop : isOpenedFor (some E) p = true := by simp [isOpenedFor, ht, he]
  have hcreds : credsOf (some E) [(p, now1), (p, now2)] =
      [p.created_at, p.created_at] := by
    simp [credsOf, opensFor, List.filter, hop]
  rw [hcreds, absFold_cons] at hmain
  simp only [absOf, List.length_cons, List.length_nil] at hmain
  obtain ⟨x, hx, hfx⟩ := map_eq_singleton absRec hmain
  refine ⟨x, hx, ?_⟩
  simp only [absRec, Prod.mk.injEq] at hfx
  exact hfx.1

/-- C7 witness: the same first-open payload twice against the empty
store. -/
theorem opened_replay_not_idempotent_witness :
    ∃ r, openedMatches (some "E1") (runSeq goodBeh stEmpty [(pW1, "N1"), (pW1, "N2")]) = [r]
      ∧ r.opened_count = some 2 :=
  opened_replay_not_idempotent "E1" stEmpty pW1 "N1" "N2"
    ⟨List.Pairwise.nil, by intro r hr; simp [stEmpty] at hr⟩ rfl rfl rfl

/-- C8: every stored record's to_email is the first element of the
payload's `to` list when that list is non-empty, and null when the list is
absent or empty — on the insert path (any event type) and on the opened
update path alike. -/
theorem to_email_normalization (idv : Nat) (et : String) (p : Payload) (now : String)
    (old : Record) :
    (∀ x rest, p.data.to_list = x :: rest →
        (eventRecord idv et p now).to_email = some x
        ∧ (openedUpdateRecord old et p now).to_email = some x)
    ∧ (p.data.to_list = [] →
        (eventRecord idv et p now).to_email = none
        ∧ (openedUpdateRecord old et p now).to_email = none) := by
  constructor
  · intro x rest hx
    constructor
    · rw [eventRecord_to_email]
      simp [toEmailOf, hx]
    · rw [show (openedUpdateRecord old et p now).to_email = toEmailOf p.data from rfl]
      simp [toEmailOf, hx]
  · intro hx
    constructor
    · rw [eventRecord_to_email]
      simp [toEmailOf, hx]
    · rw [show (openedUpdateRecord old et p now).to_email = toEmailOf p.data from rfl]
      simp [toEmailOf, hx]

/-- C8 witness: a two-address `to` list normalizes to its head; an empty
one to null. -/
theorem to_email_normalization_witness :
    (eventRecord 0 "email.opened" pW1 "N1").to_email = some "a@x.com"
    ∧ (eventRecord 0 "email.opened" ⟨some "email.opened", some "T1", pdWempty⟩
        "N1").to_email = none :=
  ⟨((to_email_normalization 0 "email.opened" pW1 "N1" rW).1 "a@x.com" ["b@x.com"] rfl).1,
   ((to_email_normalization 0 "email.opened" ⟨some "email.opened", some "T1", pdWempty⟩
      "N1" rW).2 rfl).1⟩

/-- C9: the diagnostic endpoint's environment-variable report depends only
on which configuration values are present (as booleans) — two
configurations with the same presence pattern but different secret values
produce identical reports — and the displayed store URL is a truncated
prefix of the real URL followed by an ellipsis. -/
theorem diagnostic_reports_only_presence (c1 c2 : Config) (connError : Option String)
    (h1 : truthy c1.SUPABASE_URL = truthy c2.SUPABASE_URL)
    (h2 : truthy c1.SUPABASE_SERVICE_ROLE_KEY = truthy c2.SUPABASE_SERVICE_ROLE_KEY)
    (h3 : truthy c1.RESEND_WEBHOOK_SECRET = truthy c2.RESEND_WEBHOOK_SECRET) :
    (test_connection c1 connError).environment_vars_set =
      (test_connection c2 connError).environment_vars_set
    ∧ ∀ u, c1.SUPABASE_URL = some u →
        (test_connection c1 none).supabase_url = some (u.take 20 ++ "...")
        ∧ u.take 20 ++ u.drop 20 = u := by
  constructor
  · cases connError <;> simp [test_connection, envVarsSet, h1, h2, h3]
  · intro u hu
    constructor
    · simp [test_connection, hu]
    · apply String.ext
      simp [List.take_append_drop]

/-- C9 witness: two configurations agreeing only on presence. -/
theorem diagnostic_reports_only_presence_witness :
    (test_connection ⟨some "https://aaa.supabase.co", some "key1", none⟩ none).environment_vars_set =
      (test_connection ⟨some "https://bbb.supabase.co", some "key2", none⟩ none).environment_vars_set
    ∧ ((test_connection ⟨some "https://aaa.supabase.co", some "key1", none⟩ none).supabase_url =
          some ("https://aaa.supabase.co".take 20 ++ "...")
        ∧ "https://aaa.supabase.co".take 20 ++ "https://aaa.supabase.co".drop 20 =
          "https://aaa.supabase.co") :=
  ⟨(diagnostic_reports_only_presence
      ⟨some "https://aaa.supabase.co", some "key1", none⟩
      ⟨some "https://bbb.supabase.co", some "key2", none⟩ none rfl rfl rfl).1,
   (diagnostic_reports_only_presence
      ⟨some "https://aaa.supabase.co", some "key1", none⟩
      ⟨some "https://bbb.supabase.co", some "key2", none⟩ none rfl rfl rfl).2
     "https://aaa.supabase.co" rfl⟩

/-- C10: the opened update path never inspects the update result — when
the update matches nothing and returns an empty result, the handler still
answers with the "Updated" success message (with the store unchanged), and
its response equals the one for an update that did apply; unlike the
insert path, no storage-failure error is raised here. -/
theorem update_result_ignored (beh : Behavior) (now : String) (st : Store) (p : Payload)
    (E : String) (r : Record)
    (hq : beh.queryRaises = none) (hu : beh.updateEmpty = true)
    (ht : effType p = some "email.opened") (he : p.data.email_id = some E)
    (hm : openedMatches (some E) st = [r]) :
    handle_webhook beh now st p = (st, Response.ok "Updated email.opened event")
    ∧ (handle_webhook beh now st p).2 =
      (handle_webhook ⟨beh.queryRaises, beh.insertEmpty, false⟩ now st p).2 := by
  have hm2 : openedMatches p.data.email_id st = [r] := by rw [he]; exact hm
  constructor
  · rw [handle_opened_update_empty beh now st p r [] ht hq hm2 hu]
    rfl
  · rw [handle_opened_update_empty beh now st p r [] ht hq hm2 hu,
      handle_opened_update ⟨beh.queryRaises, beh.insertEmpty, false⟩ now st p r [] ht hq hm2 rfl]

/-- C10 witness: an empty-result update against the one-row store. -/
theorem update_result_ignored_witness :
    handle_webhook ⟨none, false, true⟩ "N2" stOne pW2 =
      (stOne, Response.ok "Updated email.opened event")
    ∧ (handle_webhook ⟨none, false, true⟩ "N2" stOne pW2).2 =
      (handle_webhook ⟨none, false, false⟩ "N2" stOne pW2).2 :=
  update_result_ignored ⟨none, false, true⟩ "N2" stOne pW2 "E1" rW rfl rfl rfl rfl
    (by decide)

end WebhookService
